import Mathlib

/-!
Verification of the session-based authentication module
(app/controllers/auth_controller.py and app/models/user.py).

The controller methods are embedded as pure Lean functions over an explicit
database state.  Nondeterministic inputs of the Python code are made explicit
parameters:
* `datetime.utcnow()` becomes a `now : Nat` argument (seconds);
* `secrets.token_urlsafe(32)` becomes a `tok : String` argument;
* database-assigned primary keys become a `fresh_id : Nat` argument;
* `bcrypt` hashing and verification (external collaborator per the spec)
  become function arguments `hashPw : String → String` and
  `verify : String → String → Bool`;
* the boolean outcome of the email service becomes `email_sent : Bool`.

Every controller method uniformly returns a pair `result × DB`; methods
that execute only SELECT statements thread the state through unchanged,
which makes their read-only character a provable statement.

SQLAlchemy's `scalar_one_or_none` over a column with a `unique=True`
constraint is modelled as `List.find?`; theorems that depend on at most one
row matching carry the corresponding uniqueness hypothesis, which the
schema's unique constraints guarantee.
-/

namespace BlueHex

/-- Role enumeration from app/models/user.py (UserRole). -/
inductive UserRole where
  | user
  | admin
deriving Repr, DecidableEq

/-- Phone country enumeration from app/models/user.py (PhoneCountry). -/
inductive PhoneCountry where
  | au
  | ph
deriving Repr, DecidableEq

/-- Database row for a registered user (class User in app/models/user.py):
UserBase fields plus id, hashed_password and the timestamp columns. -/
structure User where
  id : Nat
  email : String
  phone_country : Option PhoneCountry
  phone_number : Option String
  is_active : Bool
  is_admin : Bool
  role : UserRole
  first_name : String
  last_name : String
  hashed_password : String
  created_at : Nat
  updated_at : Nat
deriving Repr, DecidableEq

/-- Public view of a user (class UserResponse in app/models/user.py):
every UserBase field plus id and timestamps, with no hashed_password field. -/
structure UserResponse where
  id : Nat
  email : String
  phone_country : Option PhoneCountry
  phone_number : Option String
  is_active : Bool
  is_admin : Bool
  role : UserRole
  first_name : String
  last_name : String
  created_at : Nat
  updated_at : Option Nat
deriving Repr, DecidableEq

/-- UserResponse.model_validate(db_user): copy each shared field of the row
into the public view, dropping hashed_password. -/
def toUserResponse (u : User) : UserResponse :=
  { id := u.id
    email := u.email
    phone_country := u.phone_country
    phone_number := u.phone_number
    is_active := u.is_active
    is_admin := u.is_admin
    role := u.role
    first_name := u.first_name
    last_name := u.last_name
    created_at := u.created_at
    updated_at := some u.updated_at }

/-- Registration input (class UserCreate in app/models/user.py). -/
structure UserCreate where
  email : String
  first_name : String
  last_name : String
  password : String
  phone_country : PhoneCountry
  phone_number : String
  role : Option UserRole
deriving Repr, DecidableEq

/-- Database row for an authentication session (class Session in
app/models/user.py). -/
structure Session where
  id : Nat
  token : String
  user_id : Nat
  created_at : Nat
  expires_at : Nat
deriving Repr, DecidableEq

/-- Response shape for sessions (class SessionResponse in
app/models/user.py); the embedded user view is an Option because
create_session fills it from a lookup that can miss. -/
structure SessionResponse where
  id : Nat
  token : String
  user_id : Nat
  created_at : Nat
  expires_at : Nat
  user : Option UserResponse
deriving Repr, DecidableEq

/-- Database row for a password reset token (class PasswordResetToken in
app/models/user.py). -/
structure PasswordResetToken where
  id : Nat
  token : String
  user_id : Nat
  created_at : Nat
  expires_at : Nat
  is_used : Bool
deriving Repr, DecidableEq

/-- The durable store: the three persisted record types. -/
structure DB where
  users : List User
  sessions : List Session
  resetTokens : List PasswordResetToken
deriving Repr, DecidableEq

/-- timedelta(hours=n) in seconds. -/
def hours (n : Nat) : Nat := n * 3600

namespace AuthController

/-- get_user_by_email: SELECT User WHERE email == e, mapped to the public
view.  Read-only. -/
def get_user_by_email (db : DB) (email : String) : Option UserResponse :=
  (db.users.find? (fun u => u.email == email)).map toUserResponse

/-- get_user_by_id: SELECT User WHERE id == uid, mapped to the public view.
Read-only. -/
def get_user_by_id (db : DB) (uid : Nat) : Option UserResponse :=
  (db.users.find? (fun u => u.id == uid)).map toUserResponse

/-- create_user: raise ValueError when the email is taken, otherwise hash
the password, insert the new row (is_active=True, role defaulting to user)
and return its public view.  The welcome email is sent after the commit and
does not affect the result. -/
def create_user (hashPw : String → String) (fresh_id now : Nat)
    (db : DB) (ud : UserCreate) : Except String UserResponse × DB :=
  match get_user_by_email db ud.email with
  | some _ => (Except.error "Email already registered", db)
  | none =>
    let db_user : User :=
      { id := fresh_id
        email := ud.email
        phone_country := some ud.phone_country
        phone_number := some ud.phone_number
        is_active := true
        is_admin := false
        role := ud.role.getD UserRole.user
        first_name := ud.first_name
        last_name := ud.last_name
        hashed_password := hashPw ud.password
        created_at := now
        updated_at := now }
    (Except.ok (toUserResponse db_user), { db with users := db.users ++ [db_user] })

/-- authenticate_user: SELECT User WHERE email == e; None when absent or
when verify_password fails, otherwise the public view.  Read-only: the
state is threaded through untouched (no add, delete or commit occurs). -/
def authenticate_user (verify : String → String → Bool)
    (db : DB) (email password : String) : Option UserResponse × DB :=
  match db.users.find? (fun u => u.email == email) with
  | none => (none, db)
  | some u =>
    if verify password u.hashed_password then (some (toUserResponse u), db)
    else (none, db)

/-- create_session: insert a Session with expires_at = now + 24 hours, then
look the owner up and return the joined response. -/
def create_session (tok : String) (fresh_id now : Nat)
    (db : DB) (user_id : Nat) : SessionResponse × DB :=
  let expires_at := now + hours 24
  let db_session : Session :=
    { id := fresh_id, token := tok, user_id := user_id
      created_at := now, expires_at := expires_at }
  let db' : DB := { db with sessions := db.sessions ++ [db_session] }
  let user := get_user_by_id db' user_id
  ({ id := db_session.id, token := db_session.token
     user_id := db_session.user_id, created_at := db_session.created_at
     expires_at := db_session.expires_at, user := user }, db')

/-- get_session_by_token: SELECT Session WHERE token == t AND
expires_at > now; None when no row matches, None when the owning user row
is missing, otherwise the joined response.  Read-only. -/
def get_session_by_token (now : Nat) (db : DB) (tok : String) :
    Option SessionResponse × DB :=
  match db.sessions.find? (fun s => s.token == tok && decide (now < s.expires_at)) with
  | none => (none, db)
  | some s =>
    match get_user_by_id db s.user_id with
    | none => (none, db)
    | some user =>
      (some { id := s.id, token := s.token, user_id := s.user_id
              created_at := s.created_at, expires_at := s.expires_at
              user := some user }, db)

/-- delete_session: SELECT Session WHERE token == t (no expiry filter);
False when absent, otherwise delete that row and return True. -/
def delete_session (db : DB) (tok : String) : Bool × DB :=
  match db.sessions.find? (fun s => s.token == tok) with
  | none => (false, db)
  | some _ =>
    (true, { db with sessions := db.sessions.eraseP (fun s => s.token == tok) })

/-- cleanup_expired_sessions: SELECT Session WHERE expires_at <= now, delete
each one, and return how many were selected. -/
def cleanup_expired_sessions (now : Nat) (db : DB) : Nat × DB :=
  let expired := db.sessions.filter (fun s => decide (s.expires_at ≤ now))
  (expired.length,
   { db with sessions := db.sessions.filter (fun s => !decide (s.expires_at ≤ now)) })

/-- create_password_reset_token: False when no user has the email (nothing
persisted); otherwise insert an unused PasswordResetToken with
expires_at = now + 1 hour and return True on both branches of the email
outcome. -/
def create_password_reset_token (tok : String) (fresh_id now : Nat)
    (email_sent : Bool) (db : DB) (email : String) : Bool × DB :=
  match get_user_by_email db email with
  | none => (false, db)
  | some user =>
    let reset_token : PasswordResetToken :=
      { id := fresh_id, token := tok, user_id := user.id
        created_at := now, expires_at := now + hours 1, is_used := false }
    let db' : DB := { db with resetTokens := db.resetTokens ++ [reset_token] }
    if email_sent then (true, db') else (true, db')

/-- reset_password: SELECT PasswordResetToken WHERE token == t AND
expires_at > now AND is_used == False; on a miss, or when the owning user
row is missing, return False with nothing changed; otherwise overwrite the
user's hashed_password, set is_used on the token, and commit both in the
same transaction. -/
def reset_password (hashPw : String → String) (now : Nat)
    (db : DB) (tok new_password : String) : Bool × DB :=
  match db.resetTokens.find?
      (fun rt => rt.token == tok && decide (now < rt.expires_at) && rt.is_used == false) with
  | none => (false, db)
  | some rt =>
    match db.users.find? (fun u => u.id == rt.user_id) with
    | none => (false, db)
    | some u =>
      (true,
       { db with
         users := db.users.map (fun v =>
           if v.id == u.id then { v with hashed_password := hashPw new_password } else v)
         resetTokens := db.resetTokens.map (fun s =>
           if s.id == rt.id then { s with is_used := true } else s) })

end AuthController

/-- Uniqueness of user emails, guaranteed by the unique=True constraint on
User.email. -/
def uniqueEmails (db : DB) : Prop :=
  db.users.Pairwise (fun a b => a.email ≠ b.email)

/-- Uniqueness of user primary keys. -/
def uniqueUserIds (db : DB) : Prop :=
  db.users.Pairwise (fun a b => a.id ≠ b.id)

/-- Uniqueness of session tokens, guaranteed by the unique=True constraint
on Session.token. -/
def uniqueSessionTokens (db : DB) : Prop :=
  db.sessions.Pairwise (fun a b => a.token ≠ b.token)

/-- Uniqueness of reset-token strings, guaranteed by the unique=True
constraint on PasswordResetToken.token. -/
def uniqueResetTokenStrings (db : DB) : Prop :=
  db.resetTokens.Pairwise (fun a b => a.token ≠ b.token)

/-- Referential integrity for sessions: every stored session references an
existing user, guaranteed by the foreign_key constraint on
Session.user_id. -/
def sessionsRefUsers (db : DB) : Prop :=
  ∀ s ∈ db.sessions, ∃ u ∈ db.users, u.id = s.user_id

instance (db : DB) : Decidable (uniqueEmails db) := by
  unfold uniqueEmails; infer_instance

instance (db : DB) : Decidable (uniqueUserIds db) := by
  unfold uniqueUserIds; infer_instance

instance (db : DB) : Decidable (uniqueSessionTokens db) := by
  unfold uniqueSessionTokens; infer_instance

instance (db : DB) : Decidable (uniqueResetTokenStrings db) := by
  unfold uniqueResetTokenStrings; infer_instance

instance (db : DB) : Decidable (sessionsRefUsers db) := by
  unfold sessionsRefUsers; infer_instance

/-- find? returns the designated element when it is the only one matching. -/
theorem find?_eq_of_unique {α : Type*} {p : α → Bool} {l : List α} {a : α}
    (ha : a ∈ l) (hpa : p a = true)
    (huniq : ∀ b ∈ l, p b = true → b = a) :
    l.find? p = some a := by
  induction l with
  | nil => cases ha
  | cons x xs ih =>
    by_cases hx : p x = true
    · rw [List.find?_cons_of_pos _ hx]
      exact congrArg some (huniq x (List.mem_cons_self x xs) hx)
    · rw [List.find?_cons_of_neg _ hx]
      rcases List.mem_cons.mp ha with rfl | hmem
      · exact absurd hpa hx
      · exact ih hmem (fun b hb hpb => huniq b (List.mem_cons_of_mem x hb) hpb)

/-- in a list whose keys are pairwise distinct, two members with equal keys
coincide. -/
theorem eq_of_pairwise_key {α β : Type*} {key : α → β} {l : List α} {a b : α}
    (hpw : l.Pairwise (fun x y => key x ≠ key y))
    (ha : a ∈ l) (hb : b ∈ l) (hk : key a = key b) : a = b := by
  induction l with
  | nil => cases ha
  | cons x xs ih =>
    rcases List.pairwise_cons.mp hpw with ⟨hx, hxs⟩
    rcases List.mem_cons.mp ha with rfl | ha'
    · rcases List.mem_cons.mp hb with rfl | hb'
      · rfl
      · exact absurd hk (hx b hb')
    · rcases List.mem_cons.mp hb with rfl | hb'
      · exact absurd hk.symm (hx a ha')
      · exact ih hxs ha' hb'

/-- when at most one element matches, erasing the first match leaves no
further match. -/
theorem find?_eraseP_eq_none {α : Type*} {p : α → Bool} {l : List α}
    (hpw : l.Pairwise (fun a b => ¬(p a = true ∧ p b = true))) :
    (l.eraseP p).find? p = none := by
  induction l with
  | nil => simp
  | cons x xs ih =>
    rcases List.pairwise_cons.mp hpw with ⟨hx, hxs⟩
    by_cases hpx : p x = true
    · rw [List.eraseP_cons_of_pos hpx, List.find?_eq_none]
      intro b hb hpb
      exact hx b hb ⟨hpx, hpb⟩
    · rw [List.eraseP_cons_of_neg hpx, List.find?_cons_of_neg _ hpx]
      exact ih hxs

/-! Concrete fixtures used by the witness theorems. -/

/-- a sample active user. -/
def alice : User :=
  { id := 1, email := "a@x", phone_country := none, phone_number := none
    is_active := true, is_admin := false, role := UserRole.user
    first_name := "A", last_name := "L", hashed_password := "#pw"
    created_at := 0, updated_at := 0 }

/-- a sample user with is_active = false. -/
def bob : User :=
  { id := 2, email := "b@x", phone_country := none, phone_number := none
    is_active := false, is_admin := false, role := UserRole.user
    first_name := "B", last_name := "L", hashed_password := "#pwb"
    created_at := 0, updated_at := 0 }

/-- a sample session owned by alice that expires at time 5. -/
def sess1 : Session :=
  { id := 1, token := "s1", user_id := 1, created_at := 0, expires_at := 5 }

/-- a sample unused reset token owned by alice that expires at time 100. -/
def rt1 : PasswordResetToken :=
  { id := 1, token := "r1", user_id := 1, created_at := 0
    expires_at := 100, is_used := false }

/-- a sample database state. -/
def exDB : DB := { users := [alice, bob], sessions := [sess1], resetTokens := [rt1] }

/-- a sample deterministic stand-in for the hashing collaborator. -/
def hFix : String → String := fun s => String.append "#" s

/-- a sample stand-in for the verification collaborator: accepts exactly the
preimage under hFix. -/
def vFix : String → String → Bool := fun p h => hFix p == h

/-! Behaviour lemmas for the embedded controller methods. -/

/-- authenticate_user threads the store through unchanged: the method only
executes a SELECT. -/
theorem authenticate_user_snd (verify : String → String → Bool)
    (db : DB) (email password : String) :
    (AuthController.authenticate_user verify db email password).2 = db := by
  unfold AuthController.authenticate_user
  cases h : db.users.find? (fun u => u.email == email) with
  | none => rfl
  | some u =>
    dsimp only
    split <;> rfl

/-- authenticate_user succeeds on the stored user whose email matches when
verification passes. -/
theorem authenticate_user_found {verify : String → String → Bool}
    {db : DB} {u : User} {email password : String}
    (hue : uniqueEmails db) (hmem : u ∈ db.users) (he : u.email = email)
    (hv : verify password u.hashed_password = true) :
    AuthController.authenticate_user verify db email password
      = (some (toUserResponse u), db) := by
  unfold uniqueEmails at hue
  have hf : db.users.find? (fun v => v.email == email) = some u := by
    apply find?_eq_of_unique hmem (by simp [he])
    intro b hb hpb
    simp only [beq_iff_eq] at hpb
    exact eq_of_pairwise_key hue hb hmem (by rw [hpb, he])
  unfold AuthController.authenticate_user
  rw [hf]
  simp [hv]

/-- authenticate_user returns the single not-authenticated outcome whenever
no stored user both matches the email and verifies the password. -/
theorem authenticate_user_missed {verify : String → String → Bool}
    {db : DB} {email password : String}
    (h : ∀ u ∈ db.users, u.email = email → verify password u.hashed_password = false) :
    AuthController.authenticate_user verify db email password = (none, db) := by
  unfold AuthController.authenticate_user
  cases hf : db.users.find? (fun v => v.email == email) with
  | none => rfl
  | some u =>
    have hm := List.mem_of_find?_eq_some hf
    have hp := List.find?_some hf
    simp only [beq_iff_eq] at hp
    simp [h u hm hp]

/-- C3: authenticate_user(email, password) returns the public view exactly of
a stored user whose email matches and whose password verifies; when the email
is unknown or the password wrong it returns the one not-authenticated outcome
(none) in both cases; and it never writes: the store component of the result
is the input store, so no session is created. -/
theorem C3_authenticate_user_spec (verify : String → String → Bool)
    (db : DB) (email password : String) (hue : uniqueEmails db) :
    (∀ u ∈ db.users, u.email = email → verify password u.hashed_password = true →
      (AuthController.authenticate_user verify db email password).1
        = some (toUserResponse u))
    ∧ ((¬ ∃ u ∈ db.users, u.email = email ∧ verify password u.hashed_password = true) →
      (AuthController.authenticate_user verify db email password).1 = none)
    ∧ (AuthController.authenticate_user verify db email password).2 = db := by
  refine ⟨?_, ?_, authenticate_user_snd verify db email password⟩
  · intro u hmem he hv
    rw [authenticate_user_found hue hmem he hv]
  · intro hno
    have h : ∀ u ∈ db.users, u.email = email →
        verify password u.hashed_password = false := by
      intro u hmem he
      by_contra hne
      exact hno ⟨u, hmem, he, by simpa using hne⟩
    rw [authenticate_user_missed h]

/-- C3 witness: on the sample store, authentication with the stored email and
correct password returns the public view of that user. -/
theorem C3_witness :
    (AuthController.authenticate_user vFix exDB "a@x" "pw").1
      = some (toUserResponse alice) := by
  have h := C3_authenticate_user_spec vFix exDB "a@x" "pw" (by decide)
  exact h.1 alice (by decide) rfl (by decide)

/-- reset_password fails and leaves the store untouched when no stored token
is simultaneously matching, unexpired and unused. -/
theorem reset_password_no_candidate {hp : String → String} {now : Nat}
    {db : DB} {tok pw : String}
    (h : ∀ rt ∈ db.resetTokens,
      ¬(rt.token = tok ∧ now < rt.expires_at ∧ rt.is_used = false)) :
    AuthController.reset_password hp now db tok pw = (false, db) := by
  have hf : db.resetTokens.find?
      (fun rt => rt.token == tok && decide (now < rt.expires_at) && rt.is_used == false)
        = none := by
    rw [List.find?_eq_none]
    intro rt hmem hpred
    simp only [Bool.and_eq_true, beq_iff_eq, decide_eq_true_eq] at hpred
    exact h rt hmem ⟨hpred.1.1, hpred.1.2, hpred.2⟩
  unfold AuthController.reset_password
  rw [hf]

/-- reset_password, given where the two SELECTs land, commits exactly the two
mutations: the owner's new password hash and the consumed flag. -/
theorem reset_password_found {hp : String → String} {now : Nat} {db : DB}
    {tok pw : String} {rt : PasswordResetToken} {u : User}
    (h1 : db.resetTokens.find?
      (fun rt => rt.token == tok && decide (now < rt.expires_at) && rt.is_used == false)
        = some rt)
    (h2 : db.users.find? (fun u => u.id == rt.user_id) = some u) :
    AuthController.reset_password hp now db tok pw =
      (true,
       { db with
         users := db.users.map (fun v =>
           if v.id == u.id then { v with hashed_password := hp pw } else v)
         resetTokens := db.resetTokens.map (fun s =>
           if s.id == rt.id then { s with is_used := true } else s) }) := by
  unfold AuthController.reset_password
  rw [h1]
  dsimp only
  rw [h2]

/-- a successful reset_password pins down where both SELECTs landed. -/
theorem reset_password_success_found {hp : String → String} {now : Nat}
    {db : DB} {tok pw : String}
    (h : (AuthController.reset_password hp now db tok pw).1 = true) :
    ∃ rt u, db.resetTokens.find?
        (fun rt => rt.token == tok && decide (now < rt.expires_at) && rt.is_used == false)
          = some rt
      ∧ db.users.find? (fun u => u.id == rt.user_id) = some u := by
  unfold AuthController.reset_password at h
  cases h1 : db.resetTokens.find?
      (fun rt => rt.token == tok && decide (now < rt.expires_at) && rt.is_used == false) with
  | none => rw [h1] at h; simp at h
  | some rt =>
    rw [h1] at h
    dsimp only at h
    cases h2 : db.users.find? (fun u => u.id == rt.user_id) with
    | none => rw [h2] at h; simp at h
    | some u => exact ⟨rt, u, rfl, h2⟩

/-- a failed reset_password leaves the store untouched. -/
theorem reset_password_fail_effects {hp : String → String} {now : Nat}
    {db : DB} {tok pw : String}
    (h : (AuthController.reset_password hp now db tok pw).1 = false) :
    (AuthController.reset_password hp now db tok pw).2 = db := by
  unfold AuthController.reset_password at h ⊢
  cases h1 : db.resetTokens.find?
      (fun rt => rt.token == tok && decide (now < rt.expires_at) && rt.is_used == false) with
  | none => rfl
  | some rt =>
    rw [h1] at h
    dsimp only at h
    dsimp only
    cases h2 : db.users.find? (fun u => u.id == rt.user_id) with
    | none => rfl
    | some u => rw [h2] at h; simp at h

/-- after a successful reset_password, every stored reset token carrying the
consumed token string is marked used. -/
theorem reset_password_token_spent {hp : String → String} {now : Nat}
    {db : DB} {tok pw : String} (hrt : uniqueResetTokenStrings db)
    (h : (AuthController.reset_password hp now db tok pw).1 = true) :
    ∀ b ∈ (AuthController.reset_password hp now db tok pw).2.resetTokens,
      b.token = tok → b.is_used = true := by
  unfold uniqueResetTokenStrings at hrt
  obtain ⟨rt, u, h1, h2⟩ := reset_password_success_found h
  have hrtmem := List.mem_of_find?_eq_some h1
  have hrtpred := List.find?_some h1
  simp only [Bool.and_eq_true, beq_iff_eq, decide_eq_true_eq] at hrtpred
  rw [reset_password_found h1 h2]
  intro b hb htokb
  rcases List.mem_map.mp hb with ⟨a, hamem, hab⟩
  by_cases hid : (a.id == rt.id) = true
  · rw [if_pos hid] at hab
    subst hab
    rfl
  · rw [if_neg hid] at hab
    subst hab
    have haeq : a = rt :=
      eq_of_pairwise_key hrt hamem hrtmem (by rw [htokb, hrtpred.1.1])
    exact absurd (by rw [haeq]; simp) hid

/-- reset_password succeeds exactly when some stored token matches, is
unexpired, is unused, and its owning user row exists. -/
theorem reset_password_true_iff (hp : String → String) (now : Nat) (db : DB)
    (tok pw : String) (hrt : uniqueResetTokenStrings db) :
    (AuthController.reset_password hp now db tok pw).1 = true ↔
      ∃ rt ∈ db.resetTokens, rt.token = tok ∧ now < rt.expires_at ∧
        rt.is_used = false ∧ ∃ u ∈ db.users, u.id = rt.user_id := by
  unfold uniqueResetTokenStrings at hrt
  constructor
  · intro h
    obtain ⟨rt, u, h1, h2⟩ := reset_password_success_found h
    have hmem := List.mem_of_find?_eq_some h1
    have hpred := List.find?_some h1
    simp only [Bool.and_eq_true, beq_iff_eq, decide_eq_true_eq] at hpred
    have humem := List.mem_of_find?_eq_some h2
    have hup := List.find?_some h2
    simp only [beq_iff_eq] at hup
    exact ⟨rt, hmem, hpred.1.1, hpred.1.2, hpred.2, u, humem, hup⟩
  · rintro ⟨rt, hmem, htok, hexp, hused, u, humem, huid⟩
    have h1 : db.resetTokens.find?
        (fun r => r.token == tok && decide (now < r.expires_at) && r.is_used == false)
          = some rt := by
      apply find?_eq_of_unique hmem (by simp [htok, hexp, hused])
      intro b hb hpb
      simp only [Bool.and_eq_true, beq_iff_eq, decide_eq_true_eq] at hpb
      exact eq_of_pairwise_key hrt hb hmem (by rw [hpb.1.1, htok])
    have h2 : (db.users.find? (fun v => v.id == rt.user_id)).isSome := by
      rw [List.find?_isSome]
      exact ⟨u, humem, by simp [huid]⟩
    cases h2' : db.users.find? (fun v => v.id == rt.user_id) with
    | none => rw [h2'] at h2; simp at h2
    | some u0 => rw [reset_password_found h1 h2']

/-- C1: a reset token is single-use and inert once expired.  A successful
reset_password(T, p) marks T consumed, so every subsequent call with T, at
any time and with any password, returns failure and returns the store it was
given unchanged; and once every stored token carrying T has its expiry at or
before the current time, every call at that time or later returns failure
with the store unchanged. -/
theorem C1_reset_token_single_use (hp : String → String) (now : Nat) (db : DB)
    (T p : String) (hrt : uniqueResetTokenStrings db) :
    ((AuthController.reset_password hp now db T p).1 = true →
      ∀ (hp2 : String → String) (now2 : Nat) (p2 : String),
        AuthController.reset_password hp2 now2
            (AuthController.reset_password hp now db T p).2 T p2
          = (false, (AuthController.reset_password hp now db T p).2))
    ∧ ((∀ rt ∈ db.resetTokens, rt.token = T → rt.expires_at ≤ now) →
      ∀ (hp2 : String → String) (p2 : String) (now2 : Nat), now ≤ now2 →
        AuthController.reset_password hp2 now2 db T p2 = (false, db)) := by
  constructor
  · intro hsucc hp2 now2 p2
    apply reset_password_no_candidate
    intro b hb hcond
    have hspent := reset_password_token_spent hrt hsucc b hb hcond.1
    rw [hspent] at hcond
    exact Bool.noConfusion hcond.2.2
  · intro hexp hp2 p2 now2 hle
    apply reset_password_no_candidate
    intro b hb hcond
    have := hexp b hb hcond.1
    omega

/-- C1 witness: on the sample store, consuming the stored reset token once
succeeds, and a second consumption at a later time fails without touching the
store. -/
theorem C1_witness :
    AuthController.reset_password hFix 20
        (AuthController.reset_password hFix 10 exDB "r1" "np").2 "r1" "np2"
      = (false, (AuthController.reset_password hFix 10 exDB "r1" "np").2) := by
  have h := C1_reset_token_single_use hFix 10 exDB "r1" "np" (by decide)
  exact h.1 (by decide) hFix 20 "np2"

/-- C2: reset_password succeeds exactly when a stored token matches, is
strictly unexpired, is unused, and its owner exists; on success the records
mutated are exactly that matching token — the stored token equal to the input
token, unexpired and unused — whose consumed flag is set, and its owning
identity, whose hashed credential becomes the hash of the new password, both
in the same store update with sessions untouched; on failure the store is
returned unchanged. -/
theorem C2_reset_password_spec (hp : String → String) (now : Nat) (db : DB)
    (tok pw : String) (hrt : uniqueResetTokenStrings db) :
    ((AuthController.reset_password hp now db tok pw).1 = true ↔
      ∃ rt ∈ db.resetTokens, rt.token = tok ∧ now < rt.expires_at ∧
        rt.is_used = false ∧ ∃ u ∈ db.users, u.id = rt.user_id)
    ∧ ((AuthController.reset_password hp now db tok pw).1 = true →
      ∃ rt ∈ db.resetTokens, rt.token = tok ∧ now < rt.expires_at ∧
        rt.is_used = false ∧ ∃ u ∈ db.users, u.id = rt.user_id ∧
        (AuthController.reset_password hp now db tok pw).2 =
          { db with
            users := db.users.map (fun v =>
              if v.id == u.id then { v with hashed_password := hp pw } else v)
            resetTokens := db.resetTokens.map (fun s =>
              if s.id == rt.id then { s with is_used := true } else s) })
    ∧ ((AuthController.reset_password hp now db tok pw).1 = false →
      (AuthController.reset_password hp now db tok pw).2 = db) := by
  refine ⟨reset_password_true_iff hp now db tok pw hrt, ?_, fun h => reset_password_fail_effects h⟩
  intro h
  obtain ⟨rt, u, h1, h2⟩ := reset_password_success_found h
  have hmem := List.mem_of_find?_eq_some h1
  have hpred := List.find?_some h1
  simp only [Bool.and_eq_true, beq_iff_eq, decide_eq_true_eq] at hpred
  have humem := List.mem_of_find?_eq_some h2
  have hup := List.find?_some h2
  simp only [beq_iff_eq] at hup
  exact ⟨rt, hmem, hpred.1.1, hpred.1.2, hpred.2, u, humem, hup,
    by rw [reset_password_found h1 h2]⟩

/-- C2 witness: on the sample store, consuming the stored valid reset token
reports success. -/
theorem C2_witness :
    (AuthController.reset_password hFix 10 exDB "r1" "np").1 = true := by
  have h := C2_reset_password_spec hFix 10 exDB "r1" "np" (by decide)
  exact h.1.mpr (by decide)

/-- get_session_by_token threads the store through unchanged: the method only
executes SELECTs. -/
theorem get_session_by_token_snd (now : Nat) (db : DB) (tok : String) :
    (AuthController.get_session_by_token now db tok).2 = db := by
  unfold AuthController.get_session_by_token
  cases h1 : db.sessions.find? (fun s => s.token == tok && decide (now < s.expires_at)) with
  | none => rfl
  | some s =>
    dsimp only
    cases h2 : AuthController.get_user_by_id db s.user_id with
    | none => rfl
    | some u => rfl

/-- get_user_by_id returns the view of the member with the looked-up id. -/
theorem get_user_by_id_eq {db : DB} {u : User} (hid : uniqueUserIds db)
    (hmem : u ∈ db.users) :
    AuthController.get_user_by_id db u.id = some (toUserResponse u) := by
  unfold uniqueUserIds at hid
  unfold AuthController.get_user_by_id
  rw [find?_eq_of_unique hmem (by simp)
    (fun b hb hpb => eq_of_pairwise_key hid hb hmem (by simpa using hpb))]
  rfl

/-- get_session_by_token resolves a stored unexpired session to the joined
view of its owner. -/
theorem get_session_by_token_found {now : Nat} {db : DB} {tok : String}
    {s : Session} {u : User}
    (hs : uniqueSessionTokens db) (hid : uniqueUserIds db)
    (hmem : s ∈ db.sessions) (htok : s.token = tok) (hexp : now < s.expires_at)
    (humem : u ∈ db.users) (huid : u.id = s.user_id) :
    AuthController.get_session_by_token now db tok =
      (some { id := s.id, token := s.token, user_id := s.user_id
              created_at := s.created_at, expires_at := s.expires_at
              user := some (toUserResponse u) }, db) := by
  unfold uniqueSessionTokens at hs
  have h1 : db.sessions.find? (fun x => x.token == tok && decide (now < x.expires_at))
      = some s := by
    apply find?_eq_of_unique hmem (by simp [htok, hexp])
    intro b hb hpb
    simp only [Bool.and_eq_true, beq_iff_eq, decide_eq_true_eq] at hpb
    exact eq_of_pairwise_key hs hb hmem (by rw [hpb.1, htok])
  have h2 : AuthController.get_user_by_id db s.user_id = some (toUserResponse u) := by
    rw [← huid]
    exact get_user_by_id_eq hid humem
  unfold AuthController.get_session_by_token
  rw [h1]
  dsimp only
  rw [h2]

/-- get_session_by_token returns the single absent outcome when no stored
session both matches and is strictly unexpired. -/
theorem get_session_by_token_missed {now : Nat} {db : DB} {tok : String}
    (h : ∀ s ∈ db.sessions, s.token = tok → s.expires_at ≤ now) :
    AuthController.get_session_by_token now db tok = (none, db) := by
  have h1 : db.sessions.find? (fun x => x.token == tok && decide (now < x.expires_at))
      = none := by
    rw [List.find?_eq_none]
    intro b hb hpb
    simp only [Bool.and_eq_true, beq_iff_eq, decide_eq_true_eq] at hpb
    have := h b hb hpb.1
    omega
  unfold AuthController.get_session_by_token
  rw [h1]

/-- C4: get_session_by_token returns the joined owner view exactly for a
stored session matching the token with expiry strictly after now (given the
unique-token and foreign-key guarantees of the schema); a missing and an
expired session yield the identical absent outcome; and the method never
writes: it returns the store it was given. -/
theorem C4_get_session_by_token_spec (now : Nat) (db : DB) (tok : String)
    (hs : uniqueSessionTokens db) (hid : uniqueUserIds db) :
    (∀ s ∈ db.sessions, s.token = tok → now < s.expires_at →
      ∀ u ∈ db.users, u.id = s.user_id →
        (AuthController.get_session_by_token now db tok).1 =
          some { id := s.id, token := s.token, user_id := s.user_id
                 created_at := s.created_at, expires_at := s.expires_at
                 user := some (toUserResponse u) })
    ∧ ((¬ ∃ s ∈ db.sessions, s.token = tok ∧ now < s.expires_at) →
      (AuthController.get_session_by_token now db tok).1 = none)
    ∧ (AuthController.get_session_by_token now db tok).2 = db := by
  refine ⟨?_, ?_, get_session_by_token_snd now db tok⟩
  · intro s hmem htok hexp u humem huid
    rw [get_session_by_token_found hs hid hmem htok hexp humem huid]
  · intro hno
    have h : ∀ s ∈ db.sessions, s.token = tok → s.expires_at ≤ now := by
      intro s hmem htok
      by_contra hlt
      exact hno ⟨s, hmem, htok, by omega⟩
    rw [get_session_by_token_missed h]

/-- C4 witness: on the sample store, before expiry, the stored session token
resolves to the joined view of its owner. -/
theorem C4_witness :
    (AuthController.get_session_by_token 3 exDB "s1").1 =
      some { id := 1, token := "s1", user_id := 1, created_at := 0
             expires_at := 5, user := some (toUserResponse alice) } := by
  have h := C4_get_session_by_token_spec 3 exDB "s1" (by decide) (by decide)
  exact h.1 sess1 (by decide) rfl (by decide) alice (by decide) rfl

/-- delete_session, given where its SELECT lands, deletes that row and
reports true. -/
theorem delete_session_effect {db : DB} {tok : String} {s : Session}
    (h1 : db.sessions.find? (fun s => s.token == tok) = some s) :
    AuthController.delete_session db tok =
      (true, { db with sessions := db.sessions.eraseP (fun s => s.token == tok) }) := by
  unfold AuthController.delete_session
  rw [h1]

/-- delete_session reports false and changes nothing when no stored session
carries the token. -/
theorem delete_session_absent {db : DB} {tok : String}
    (h : ∀ s ∈ db.sessions, s.token ≠ tok) :
    AuthController.delete_session db tok = (false, db) := by
  have h1 : db.sessions.find? (fun s => s.token == tok) = none := by
    rw [List.find?_eq_none]
    intro b hb hpb
    simp only [beq_iff_eq] at hpb
    exact h b hb hpb
  unfold AuthController.delete_session
  rw [h1]

/-- C5 counterexample: the claim says deleting a session whose expiry has
passed yields false, but delete_session filters on the token only: on the
sample store the stored session expired at time 5, well before time 100, yet
deleting it reports true. -/
theorem C5_counterexample :
    (∃ s ∈ exDB.sessions, s.token = "s1" ∧ s.expires_at ≤ 100)
    ∧ (AuthController.delete_session exDB "s1").1 = true := by decide

/-- C5 amended: delete_session returns whether a deletion occurred,
regardless of expiry: true exactly when a stored session carries the token
(even one whose expiry has passed), false with no error and no store change
when none does; calling it twice in a row yields true then false. -/
theorem C5_delete_session_amended (db : DB) (tok : String)
    (hs : uniqueSessionTokens db) :
    ((AuthController.delete_session db tok).1 = true ↔
      ∃ s ∈ db.sessions, s.token = tok)
    ∧ ((AuthController.delete_session db tok).1 = false →
      (AuthController.delete_session db tok).2 = db)
    ∧ ((AuthController.delete_session db tok).1 = true →
      AuthController.delete_session (AuthController.delete_session db tok).2 tok
        = (false, (AuthController.delete_session db tok).2)) := by
  unfold uniqueSessionTokens at hs
  refine ⟨?_, ?_, ?_⟩
  · have hrepr : (AuthController.delete_session db tok).1
        = (db.sessions.find? (fun s => s.token == tok)).isSome := by
      unfold AuthController.delete_session
      cases h1 : db.sessions.find? (fun s => s.token == tok) with
      | none => rfl
      | some s => rfl
    rw [hrepr, List.find?_isSome]
    constructor
    · rintro ⟨s, hmem, hp⟩
      exact ⟨s, hmem, by simpa using hp⟩
    · rintro ⟨s, hmem, hp⟩
      exact ⟨s, hmem, by simp [hp]⟩
  · intro hfalse
    unfold AuthController.delete_session at hfalse ⊢
    cases h1 : db.sessions.find? (fun s => s.token == tok) with
    | none => rfl
    | some s => rw [h1] at hfalse; simp at hfalse
  · intro htrue
    cases h1 : db.sessions.find? (fun x => x.token == tok) with
    | none =>
      unfold AuthController.delete_session at htrue
      rw [h1] at htrue
      simp at htrue
    | some s =>
      rw [delete_session_effect h1]
      apply delete_session_absent
      intro b hb htok
      have hpw : db.sessions.Pairwise
          (fun a b => ¬((a.token == tok) = true ∧ (b.token == tok) = true)) := by
        refine hs.imp ?_
        intro a b hne hcontra
        rcases hcontra with ⟨ha, hb'⟩
        simp only [beq_iff_eq] at ha hb'
        exact hne (ha.trans hb'.symm)
      have hnone := find?_eraseP_eq_none hpw
      rw [List.find?_eq_none] at hnone
      exact absurd (by simp [htok]) (hnone b hb)

/-- C5 witness: on the sample store a first deletion succeeds and a second
one with the same token reports false and changes nothing. -/
theorem C5_witness :
    AuthController.delete_session (AuthController.delete_session exDB "s1").2 "s1"
      = (false, (AuthController.delete_session exDB "s1").2) := by
  have h := C5_delete_session_amended exDB "s1" (by decide)
  exact h.2.2 (by decide)

/-- get_user_by_email misses exactly when no stored user carries the
email. -/
theorem get_user_by_email_none {db : DB} {email : String}
    (hno : ¬ ∃ u ∈ db.users, u.email = email) :
    AuthController.get_user_by_email db email = none := by
  unfold AuthController.get_user_by_email
  rw [List.find?_eq_none.mpr ?_]
  · rfl
  · intro u hmem hp
    exact hno ⟨u, hmem, by simpa using hp⟩

/-- create_password_reset_token, when the email lookup hits, persists the
new unused token with a one-hour expiry and reports true on both branches of
the email outcome. -/
theorem create_password_reset_token_found {tok : String} {fresh_id now : Nat}
    {email_sent : Bool} {db : DB} {email : String} {ur : UserResponse}
    (h1 : AuthController.get_user_by_email db email = some ur) :
    AuthController.create_password_reset_token tok fresh_id now email_sent db email
      = (true, { db with resetTokens := db.resetTokens ++
          [{ id := fresh_id, token := tok, user_id := ur.id, created_at := now
             expires_at := now + hours 1, is_used := false }] }) := by
  unfold AuthController.create_password_reset_token
  rw [h1]
  dsimp only
  cases email_sent <;> rfl

/-- create_password_reset_token reports false and persists nothing when the
email lookup misses. -/
theorem create_password_reset_token_absent {tok : String} {fresh_id now : Nat}
    {email_sent : Bool} {db : DB} {email : String}
    (h1 : AuthController.get_user_by_email db email = none) :
    AuthController.create_password_reset_token tok fresh_id now email_sent db email
      = (false, db) := by
  unfold AuthController.create_password_reset_token
  rw [h1]

/-- C6: create_password_reset_token returns false and changes nothing when
no user carries the email; when one does it appends exactly one unconsumed
reset token whose expiry is now + 1 hour and returns true; and the returned
value and state do not depend on whether the reset email was sent. -/
theorem C6_create_password_reset_token_spec (tok : String) (fresh_id now : Nat)
    (email_sent : Bool) (db : DB) (email : String) :
    ((¬ ∃ u ∈ db.users, u.email = email) →
      AuthController.create_password_reset_token tok fresh_id now email_sent db email
        = (false, db))
    ∧ ((∃ u ∈ db.users, u.email = email) →
      (AuthController.create_password_reset_token tok fresh_id now email_sent db email).1
          = true
      ∧ ∃ uid : Nat,
        (AuthController.create_password_reset_token tok fresh_id now email_sent db email).2
          = { db with resetTokens := db.resetTokens ++
              [{ id := fresh_id, token := tok, user_id := uid, created_at := now
                 expires_at := now + hours 1, is_used := false }] })
    ∧ (AuthController.create_password_reset_token tok fresh_id now true db email
        = AuthController.create_password_reset_token tok fresh_id now false db email) := by
  refine ⟨?_, ?_, ?_⟩
  · intro hno
    exact create_password_reset_token_absent (get_user_by_email_none hno)
  · rintro ⟨u, hmem, he⟩
    have hsome : (AuthController.get_user_by_email db email).isSome := by
      unfold AuthController.get_user_by_email
      cases hf : db.users.find? (fun v => v.email == email) with
      | none =>
        rw [List.find?_eq_none] at hf
        exact absurd (by simp [he]) (hf u hmem)
      | some v => rfl
    cases h1 : AuthController.get_user_by_email db email with
    | none => rw [h1] at hsome; simp at hsome
    | some ur =>
      rw [create_password_reset_token_found h1]
      exact ⟨rfl, ur.id, rfl⟩
  · cases h1 : AuthController.get_user_by_email db email with
    | none =>
      rw [create_password_reset_token_absent h1, create_password_reset_token_absent h1]
    | some ur =>
      rw [create_password_reset_token_found h1, create_password_reset_token_found h1]

/-- C6 witness: on the sample store, requesting a reset for the stored email
reports true even though the email send failed. -/
theorem C6_witness :
    (AuthController.create_password_reset_token "t9" 9 50 false exDB "a@x").1
      = true := by
  have h := C6_create_password_reset_token_spec "t9" 9 50 false exDB "a@x"
  exact (h.2.1 ⟨alice, by decide, rfl⟩).1

/-- get_user_by_email hits exactly when some stored user carries the
email. -/
theorem get_user_by_email_isSome (db : DB) (email : String) :
    (AuthController.get_user_by_email db email).isSome
      ↔ ∃ u ∈ db.users, u.email = email := by
  unfold AuthController.get_user_by_email
  cases hf : db.users.find? (fun v => v.email == email) with
  | none =>
    rw [List.find?_eq_none] at hf
    constructor
    · intro h
      simp at h
    · rintro ⟨u, hmem, he⟩
      exact absurd (by simp [he]) (hf u hmem)
  | some v =>
    constructor
    · intro h
      exact ⟨v, List.mem_of_find?_eq_some hf, by simpa using List.find?_some hf⟩
    · intro h
      rfl

/-- sample registration input reusing the stored email. -/
def udA : UserCreate :=
  { email := "a@x", first_name := "A2", last_name := "L2", password := "x"
    phone_country := PhoneCountry.au, phone_number := "0", role := none }

/-- C7: create_user rejects with the duplicate-identity error exactly when a
stored user already carries the email, and then persists nothing; otherwise
it appends exactly one new user row with is_active true, role defaulting to
user and the hashed password, and returns its public view (a shape that
carries no credential hash field). -/
theorem C7_create_user_spec (hp : String → String) (fresh_id now : Nat)
    (db : DB) (ud : UserCreate) :
    (((AuthController.create_user hp fresh_id now db ud).1
        = Except.error "Email already registered")
      ↔ ∃ u ∈ db.users, u.email = ud.email)
    ∧ ((∃ u ∈ db.users, u.email = ud.email) →
      (AuthController.create_user hp fresh_id now db ud).2 = db)
    ∧ ((¬ ∃ u ∈ db.users, u.email = ud.email) →
      ∃ newU : User,
        (AuthController.create_user hp fresh_id now db ud).1
            = Except.ok (toUserResponse newU)
        ∧ (AuthController.create_user hp fresh_id now db ud).2
            = { db with users := db.users ++ [newU] }
        ∧ newU.email = ud.email ∧ newU.is_active = true
        ∧ newU.role = ud.role.getD UserRole.user
        ∧ newU.hashed_password = hp ud.password) := by
  by_cases hex : ∃ u ∈ db.users, u.email = ud.email
  · have hsome := (get_user_by_email_isSome db ud.email).mpr hex
    cases h2 : AuthController.get_user_by_email db ud.email with
    | none => rw [h2] at hsome; simp at hsome
    | some ur =>
      have heq : AuthController.create_user hp fresh_id now db ud
          = (Except.error "Email already registered", db) := by
        unfold AuthController.create_user
        rw [h2]
      rw [heq]
      exact ⟨⟨fun _ => hex, fun _ => rfl⟩, fun _ => rfl, fun hno => absurd hex hno⟩
  · have heq : AuthController.create_user hp fresh_id now db ud
        = (Except.ok (toUserResponse
            { id := fresh_id, email := ud.email, phone_country := some ud.phone_country
              phone_number := some ud.phone_number, is_active := true, is_admin := false
              role := ud.role.getD UserRole.user, first_name := ud.first_name
              last_name := ud.last_name, hashed_password := hp ud.password
              created_at := now, updated_at := now }),
           { db with users := db.users ++
             [{ id := fresh_id, email := ud.email, phone_country := some ud.phone_country
                phone_number := some ud.phone_number, is_active := true, is_admin := false
                role := ud.role.getD UserRole.user, first_name := ud.first_name
                last_name := ud.last_name, hashed_password := hp ud.password
                created_at := now, updated_at := now }] }) := by
      unfold AuthController.create_user
      rw [get_user_by_email_none hex]
    rw [heq]
    exact ⟨⟨fun h => Except.noConfusion h, fun h => absurd h hex⟩,
      fun h => absurd h hex,
      fun _ => ⟨_, rfl, rfl, rfl, rfl, rfl, rfl⟩⟩

/-- C7 witness: on the sample store, registering the stored email again is
rejected with the duplicate error. -/
theorem C7_witness :
    (AuthController.create_user hFix 9 9 exDB udA).1
      = Except.error "Email already registered" := by
  have h := C7_create_user_spec hFix 9 9 exDB udA
  exact h.1.mpr ⟨alice, by decide, rfl⟩

/-- a freshly created session resolves, strictly before its expiry, to the
joined view of its owner. -/
theorem create_session_then_get (tok : String) (fresh_id now now2 : Nat)
    (db : DB) (u : User) (hmem : u ∈ db.users) (hid : uniqueUserIds db)
    (hfresh : ∀ s ∈ db.sessions, s.token ≠ tok)
    (hnow : now2 < now + hours 24) :
    (AuthController.get_session_by_token now2
        (AuthController.create_session tok fresh_id now db u.id).2 tok).1
      = some { id := fresh_id, token := tok, user_id := u.id, created_at := now
               expires_at := now + hours 24, user := some (toUserResponse u) } := by
  have hdb'eq : (AuthController.create_session tok fresh_id now db u.id).2
      = { db with sessions := db.sessions ++
          [{ id := fresh_id, token := tok, user_id := u.id, created_at := now
             expires_at := now + hours 24 }] } := rfl
  rw [hdb'eq]
  have h1 : (db.sessions ++
        [({ id := fresh_id, token := tok, user_id := u.id, created_at := now
            expires_at := now + hours 24 } : Session)]).find?
          (fun x => x.token == tok && decide (now2 < x.expires_at))
      = some { id := fresh_id, token := tok, user_id := u.id, created_at := now
               expires_at := now + hours 24 } := by
    apply find?_eq_of_unique
    · exact List.mem_append_right _ (List.mem_singleton_self _)
    · simp [hnow]
    · intro b hb hpb
      simp only [Bool.and_eq_true, beq_iff_eq, decide_eq_true_eq] at hpb
      rcases List.mem_append.mp hb with hl | hr
      · exact absurd hpb.1 (hfresh b hl)
      · simpa using hr
  unfold AuthController.get_session_by_token
  rw [h1]
  dsimp only
  rw [show AuthController.get_user_by_id
      { db with sessions := db.sessions ++
        [{ id := fresh_id, token := tok, user_id := u.id, created_at := now
           expires_at := now + hours 24 }] } u.id = some (toUserResponse u) from
    get_user_by_id_eq hid hmem]

/-- C8: create_session persists a session whose expiry is exactly
now + 24 hours, and resolving the returned token through
get_session_by_token at any time strictly before that expiry (in particular
immediately, at the creation instant) returns the joined view of the owning
identity. -/
theorem C8_create_session_resolves (tok : String) (fresh_id now now2 : Nat)
    (db : DB) (u : User) (hmem : u ∈ db.users) (hid : uniqueUserIds db)
    (hfresh : ∀ s ∈ db.sessions, s.token ≠ tok)
    (hnow : now2 < now + hours 24) :
    (AuthController.create_session tok fresh_id now db u.id).1.expires_at
        = now + hours 24
    ∧ (AuthController.get_session_by_token now2
        (AuthController.create_session tok fresh_id now db u.id).2 tok).1
      = some { id := fresh_id, token := tok, user_id := u.id, created_at := now
               expires_at := now + hours 24, user := some (toUserResponse u) } :=
  ⟨rfl, create_session_then_get tok fresh_id now now2 db u hmem hid hfresh hnow⟩

/-- C8 witness: on the sample store, a session created at time 7 for the
stored user resolves immediately to that user's joined view with a 24-hour
expiry. -/
theorem C8_witness :
    (AuthController.get_session_by_token 7
        (AuthController.create_session "fr" 5 7 exDB 1).2 "fr").1
      = some { id := 5, token := "fr", user_id := 1, created_at := 7
               expires_at := 7 + hours 24, user := some (toUserResponse alice) } := by
  have h := C8_create_session_resolves "fr" 5 7 7 exDB alice (by decide) (by decide)
      (by decide) (by decide)
  exact h.2

/-- C9: cleanup_expired_sessions deletes exactly the sessions whose expiry
is at or before now — the kept sessions are exactly the stored ones with
expiry strictly after now — returns the number deleted (count plus kept
equals the original count), and leaves users and reset tokens untouched. -/
theorem C9_cleanup_expired_sessions_spec (now : Nat) (db : DB) :
    ((AuthController.cleanup_expired_sessions now db).1
        + (AuthController.cleanup_expired_sessions now db).2.sessions.length
      = db.sessions.length)
    ∧ (∀ s : Session,
        s ∈ (AuthController.cleanup_expired_sessions now db).2.sessions
          ↔ (s ∈ db.sessions ∧ now < s.expires_at))
    ∧ (AuthController.cleanup_expired_sessions now db).2.users = db.users
    ∧ (AuthController.cleanup_expired_sessions now db).2.resetTokens
        = db.resetTokens := by
  refine ⟨?_, ?_, rfl, rfl⟩
  · unfold AuthController.cleanup_expired_sessions
    dsimp only
    exact (List.length_eq_length_filter_add _).symm
  · intro s
    unfold AuthController.cleanup_expired_sessions
    dsimp only
    rw [List.mem_filter]
    simp [Nat.not_le]

/-- C9 witness: on the sample store at time 100, the session that expired at
time 5 is no longer among the kept sessions. -/
theorem C9_witness :
    sess1 ∉ ((AuthController.cleanup_expired_sessions 100 exDB).2).sessions := by
  have h := C9_cleanup_expired_sessions_spec 100 exDB
  intro hmem
  exact absurd ((h.2.1 sess1).mp hmem).2 (by decide)

/-- C10: no lifecycle operation consults the is_active flag.  For a stored
user whose is_active is false, authenticate_user still returns the public
view once the password verifies, a session created for the user still
resolves to that view before its expiry, and reset_password with a valid
token owned by the user still succeeds and overwrites the stored
credential — the same conclusions the active-user theorems give, under no
assumption that is_active is true. -/
theorem C10_is_active_not_consulted (db : DB) (u : User)
    (verify : String → String → Bool) (hp : String → String)
    (pw tok stok : String) (fresh_id now now2 : Nat)
    (hmem : u ∈ db.users) (hinactive : u.is_active = false)
    (hue : uniqueEmails db) (hid : uniqueUserIds db)
    (hrt : uniqueResetTokenStrings db)
    (hfresh : ∀ s ∈ db.sessions, s.token ≠ stok)
    (hnow : now2 < now + hours 24) :
    (verify pw u.hashed_password = true →
      (AuthController.authenticate_user verify db u.email pw).1
        = some (toUserResponse u))
    ∧ ((AuthController.get_session_by_token now2
          (AuthController.create_session stok fresh_id now db u.id).2 stok).1
        = some { id := fresh_id, token := stok, user_id := u.id, created_at := now
                 expires_at := now + hours 24, user := some (toUserResponse u) })
    ∧ (∀ rt ∈ db.resetTokens, rt.token = tok → rt.user_id = u.id →
        now < rt.expires_at → rt.is_used = false →
        (AuthController.reset_password hp now db tok pw).1 = true
        ∧ { u with hashed_password := hp pw } ∈
            (AuthController.reset_password hp now db tok pw).2.users) := by
  refine ⟨?_, ?_, ?_⟩
  · intro hv
    rw [authenticate_user_found hue hmem rfl hv]
  · exact create_session_then_get stok fresh_id now now2 db u hmem hid hfresh hnow
  · intro rt hrtmem htok hruid hexp hused
    have hsucc : (AuthController.reset_password hp now db tok pw).1 = true :=
      (reset_password_true_iff hp now db tok pw hrt).mpr
        ⟨rt, hrtmem, htok, hexp, hused, u, hmem, hruid.symm⟩
    refine ⟨hsucc, ?_⟩
    have hrt' := hrt
    have hid' := hid
    unfold uniqueResetTokenStrings at hrt'
    unfold uniqueUserIds at hid'
    obtain ⟨rt0, u0, h1, h2⟩ := reset_password_success_found hsucc
    have hu0mem := List.mem_of_find?_eq_some h2
    have hu0id : u0.id = rt0.user_id := by simpa using List.find?_some h2
    have hrt0mem := List.mem_of_find?_eq_some h1
    have hrt0pred := List.find?_some h1
    simp only [Bool.and_eq_true, beq_iff_eq, decide_eq_true_eq] at hrt0pred
    have hrt0eq : rt0 = rt :=
      eq_of_pairwise_key hrt' hrt0mem hrtmem (by rw [hrt0pred.1.1, htok])
    have hu0eq : u0 = u :=
      eq_of_pairwise_key hid' hu0mem hmem (by rw [hu0id, hrt0eq, hruid])
    rw [reset_password_found h1 h2]
    dsimp only
    have himg : ({ u with hashed_password := hp pw } : User)
        = (fun v => if v.id == u0.id then { v with hashed_password := hp pw } else v) u := by
      rw [hu0eq]
      simp
    rw [himg]
    exact List.mem_map_of_mem _ hmem

/-- C10 witness: on the sample store, the user whose is_active flag is false
still authenticates to their public view. -/
theorem C10_witness :
    (AuthController.authenticate_user vFix exDB "b@x" "pwb").1
      = some (toUserResponse bob) := by
  have h := C10_is_active_not_consulted exDB bob vFix hFix "pwb" "r1" "fr" 5 7 7
      (by decide) rfl (by decide) (by decide) (by decide) (by decide) (by decide)
  exact h.1 (by decide)

end BlueHex
